import Mathlib

/-!
Shallow embedding of `ConvolutionalAutoEncoder`
(src/Deep-Learning-by-means-of-Design-Pattern/pydbm/cnn/convolutionalneuralnetwork/convolutional_auto_encoder.pyx).

Tensors are modelled as a 4-D shape together with a flat data list; the
numeric contents of layer operations (convolution arithmetic, activation
functions, dropout) are external collaborators of this class, so they are
fields of the embedded layer/optimizer records: arbitrary functions that may
fail (Python exceptions become `Except Err`).  Debug logging is modelled as a
`List String` of emitted messages.  The mutable attribute
`__feature_points_arr` is a field of the class state, threaded explicitly.
-/

abbrev Err := String

/-- Tensor4 models an `np.ndarray` with `ndim=4` and shape `(b, c, h, w)`;
the element data is kept as a flat list (element values only matter up to
equality for the properties proved here, so `Int` entries stand for the
doubles). -/
structure Tensor4 where
  b : Nat
  c : Nat
  h : Nat
  w : Nat
  data : List Int
deriving DecidableEq, Repr

/-- Tensor2 models an `np.ndarray` with `ndim=2` (the flattened hidden
activity array used by the dropout step). -/
structure Tensor2 where
  rows : Nat
  cols : Nat
  data : List Int
deriving DecidableEq, Repr

/-- Shape of a 4-D tensor as a 4-tuple `(b, c, h, w)`. -/
def Tensor4.shape (t : Tensor4) : Nat × Nat × Nat × Nat :=
  (t.b, t.c, t.h, t.w)

/-- Model of `img_arr.reshape((img_arr.shape[0], -1))`: numpy infers the
second dimension, and raises if the batch dimension does not divide the
element count (or is zero while elements exist). -/
def Tensor4.reshape2 (t : Tensor4) : Except Err Tensor2 :=
  if t.b ≠ 0 ∧ t.b ∣ t.data.length then
    .ok ⟨t.b, t.data.length / t.b, t.data⟩
  else
    .error "cannot reshape array"

/-- Model of `hidden_activity_arr.reshape((b, c, h, w))`: numpy raises unless
the element count matches the requested shape. -/
def Tensor2.reshape4 (t : Tensor2) (b c h w : Nat) : Except Err Tensor4 :=
  if t.data.length = b * c * h * w then
    .ok ⟨b, c, h, w, t.data⟩
  else
    .error "cannot reshape array"

/-- Model of an activation-function object (`graph.activation_function` /
`graph.deactivation_function`): exposes `activate`, `backward` and `forward`
transforms, each of which may raise. -/
structure ActivatingFunction where
  activate : Tensor4 → Except Err Tensor4
  backward : Tensor4 → Except Err Tensor4
  forward : Tensor4 → Except Err Tensor4

/-- Model of a layer's `graph` attribute. -/
structure Graph where
  activation_function : ActivatingFunction
  deactivation_function : ActivatingFunction

/-- Model of a `ConvolutionLayer` element of `layerable_cnn_list`.  The
`Bool` argument of `convolve` is the `no_bias_flag` keyword (`False` by
default at the forward call sites, `True` in `back_propagation`). -/
structure LayerableCNN where
  convolve : Tensor4 → Bool → Except Err Tensor4
  deconvolve : Tensor4 → Except Err Tensor4
  back_propagate : Tensor4 → Except Err Tensor4
  graph : Graph

/-- Model of `opt_params`: the dropout rate (a Python double, embedded as a
rational since only comparisons with `0` occur) and the `dropout` /
`de_dropout` transforms on the flattened 2-D hidden representation. -/
structure OptParams where
  dropout_rate : ℚ
  dropout : Tensor2 → Except Err Tensor2
  de_dropout : Tensor2 → Except Err Tensor2

/-- State of a `ConvolutionalAutoEncoder` instance: the layer stack, the
optimizer, and the private mutable attribute `__feature_points_arr`
(class-level initial value `None`, line 30 of the source). -/
structure ConvolutionalAutoEncoder where
  layerable_cnn_list : List LayerableCNN
  opt_params : OptParams
  feature_points_arr : Option Tensor4

/-- Model of `__init__` (restricted to the attributes the verified methods
touch): stores the stack and `opt_params`; `__feature_points_arr` keeps its
class-level initial value `None`. -/
def ConvolutionalAutoEncoder.init (layerable_cnn_list : List LayerableCNN)
    (opt_params : OptParams) : ConvolutionalAutoEncoder :=
  ⟨layerable_cnn_list, opt_params, none⟩

/-- Encoder loop of `forward_propagation` (source lines 127-133): for each
layer in stack order, `convolve` then `activate`; an exception in either is
logged as `Error raised in Convolution layer (i+1)` and re-raised.  `i` is
the running 0-based loop index. -/
def encoderLoopAux (layers : List LayerableCNN) (i : Nat) (img_arr : Tensor4) :
    List String × Except Err Tensor4 :=
  match layers with
  | [] => ([], .ok img_arr)
  | L :: rest =>
    match L.convolve img_arr false >>= L.graph.activation_function.activate with
    | .error e => (["Error raised in Convolution layer " ++ toString (i + 1)], .error e)
    | .ok img2 => encoderLoopAux rest (i + 1) img2

/-- Decoder loop of `forward_propagation` (source lines 147-155), applied to
the reversed layer list: `activation_function.backward`, then `deconvolve`,
then `deactivation_function.activate`; an exception is logged as
`Error raised in Deconvolution layer (i+1)` and re-raised. -/
def decoderLoopAux (layers : List LayerableCNN) (i : Nat) (img_arr : Tensor4) :
    List String × Except Err Tensor4 :=
  match layers with
  | [] => ([], .ok img_arr)
  | L :: rest =>
    match L.graph.activation_function.backward img_arr >>= L.deconvolve >>=
        L.graph.deactivation_function.activate with
    | .error e => (["Error raised in Deconvolution layer " ++ toString (i + 1)], .error e)
    | .ok img2 => decoderLoopAux rest (i + 1) img2

/-- Dropout step of `forward_propagation` (source lines 137-145): when
`dropout_rate > 0`, flatten to 2-D, apply `dropout`, reshape back using the
pre-flatten tensor's four dimensions; otherwise do nothing. -/
def dropoutPhase (opt_params : OptParams) (img_arr : Tensor4) : Except Err Tensor4 :=
  if opt_params.dropout_rate > 0 then do
    let hidden_activity_arr ← img_arr.reshape2
    let hidden_activity_arr ← opt_params.dropout hidden_activity_arr
    hidden_activity_arr.reshape4 img_arr.b img_arr.c img_arr.h img_arr.w
  else .ok img_arr

/-- Model of `forward_propagation` (source lines 112-157).  Returns the
emitted debug log, the post-call object state, and either the propagated
tensor or the re-raised exception.  The state update at line 135
(`self.__feature_points_arr = img_arr.copy()`) happens after a successful
encoder pass and before the dropout step and the decoder loop. -/
def ConvolutionalAutoEncoder.forward_propagation (s : ConvolutionalAutoEncoder)
    (img_arr : Tensor4) :
    List String × ConvolutionalAutoEncoder × Except Err Tensor4 :=
  match encoderLoopAux s.layerable_cnn_list 0 img_arr with
  | (log, .error e) => (log, s, .error e)
  | (log, .ok enc) =>
    let s2 : ConvolutionalAutoEncoder := { s with feature_points_arr := some enc }
    match dropoutPhase s2.opt_params enc with
    | .error e => (log, s2, .error e)
    | .ok img2 =>
      match decoderLoopAux s2.layerable_cnn_list.reverse 0 img2 with
      | (log2, .error e) => (log ++ log2, s2, .error e)
      | (log2, .ok out) => (log ++ log2, s2, .ok out)

/-- First loop of `back_propagation` (source lines 172-177): for each layer
in stack order, `convolve` with `no_bias_flag=True`; an exception is logged
as `Backward raised error in Convolution layer (i+1)` and re-raised. -/
def bpConvLoopAux (layers : List LayerableCNN) (i : Nat) (delta_arr : Tensor4) :
    List String × Except Err Tensor4 :=
  match layers with
  | [] => ([], .ok delta_arr)
  | L :: rest =>
    match L.convolve delta_arr true with
    | .error e => (["Backward raised error in Convolution layer " ++ toString (i + 1)], .error e)
    | .ok d2 => bpConvLoopAux rest (i + 1) d2

/-- De-dropout step of `back_propagation` (source lines 179-188): when
`dropout_rate > 0`, flatten to 2-D, apply `de_dropout`, reshape back using
the delta's own four dimensions. -/
def deDropoutPhase (opt_params : OptParams) (delta_arr : Tensor4) : Except Err Tensor4 :=
  if opt_params.dropout_rate > 0 then do
    let hidden_activity_arr ← delta_arr.reshape2
    let hidden_activity_arr ← opt_params.de_dropout hidden_activity_arr
    hidden_activity_arr.reshape4 delta_arr.b delta_arr.c delta_arr.h delta_arr.w
  else .ok delta_arr

/-- Reverse loop of `back_propagation` (source lines 190-199), applied to the
reversed layer list of length `n`: `back_propagate` then
`deactivation_function.forward`; an exception is logged as
`Delta computation raised an error in CNN layer (n - i)` and re-raised. -/
def bpReverseLoopAux (n : Nat) (layers : List LayerableCNN) (i : Nat) (delta_arr : Tensor4) :
    List String × Except Err Tensor4 :=
  match layers with
  | [] => ([], .ok delta_arr)
  | L :: rest =>
    match L.back_propagate delta_arr >>= L.graph.deactivation_function.forward with
    | .error e =>
      (["Delta computation raised an error in CNN layer " ++ toString (n - i)], .error e)
    | .ok d2 => bpReverseLoopAux n rest (i + 1) d2

/-- Model of `back_propagation` (source lines 159-201).  Returns the emitted
debug log, the post-call object state (the method assigns no attribute of
`self`, so the state is returned unchanged on every path), and either the
propagated delta or the re-raised exception. -/
def ConvolutionalAutoEncoder.back_propagation (s : ConvolutionalAutoEncoder)
    (delta_arr : Tensor4) :
    List String × ConvolutionalAutoEncoder × Except Err Tensor4 :=
  match bpConvLoopAux s.layerable_cnn_list 0 delta_arr with
  | (log, .error e) => (log, s, .error e)
  | (log, .ok d1) =>
    match deDropoutPhase s.opt_params d1 with
    | .error e => (log, s, .error e)
    | .ok d2 =>
      match bpReverseLoopAux s.layerable_cnn_list.reverse.length
          s.layerable_cnn_list.reverse 0 d2 with
      | (log2, .error e) => (log ++ log2, s, .error e)
      | (log2, .ok out) => (log ++ log2, s, .ok out)

/-- Model of `extract_feature_points_arr` (source lines 203-211): returns the
cached attribute as is. -/
def ConvolutionalAutoEncoder.extract_feature_points_arr (s : ConvolutionalAutoEncoder) :
    Option Tensor4 :=
  s.feature_points_arr

deriving instance DecidableEq for Except

/-- Per-layer decoder transformation as the source implements it (lines
150-152): the layer's `activation_function.backward`, then `deconvolve`,
then `deactivation_function.activate`. -/
def decoder_step (L : LayerableCNN) (img_arr : Tensor4) : Except Err Tensor4 :=
  L.graph.activation_function.backward img_arr >>= L.deconvolve >>=
    L.graph.deactivation_function.activate

/-- Per-layer step of the first `back_propagation` loop (line 174):
`convolve` with `no_bias_flag=True`. -/
def bp_conv_step (L : LayerableCNN) (delta_arr : Tensor4) : Except Err Tensor4 :=
  L.convolve delta_arr true

/-- Per-layer step of the reverse `back_propagation` loop (lines 193-194):
`back_propagate`, then `deactivation_function.forward`. -/
def bp_rev_step (L : LayerableCNN) (delta_arr : Tensor4) : Except Err Tensor4 :=
  L.back_propagate delta_arr >>= L.graph.deactivation_function.forward

theorem encoderLoopAux_ok_log (layers : List LayerableCNN) :
    ∀ (i : Nat) (t : Tensor4) (log : List String) (enc : Tensor4),
    encoderLoopAux layers i t = (log, .ok enc) → log = [] := by
  induction layers with
  | nil =>
    intro i t log enc h
    simp only [encoderLoopAux, Prod.mk.injEq] at h
    exact h.1.symm
  | cons L rest ih =>
    intro i t log enc h
    simp only [encoderLoopAux] at h
    cases hstep : L.convolve t false >>= L.graph.activation_function.activate with
    | error e => rw [hstep] at h; simp at h
    | ok t2 => rw [hstep] at h; exact ih (i + 1) t2 log enc h

theorem bpConvLoopAux_ok_log (layers : List LayerableCNN) :
    ∀ (i : Nat) (t : Tensor4) (log : List String) (out : Tensor4),
    bpConvLoopAux layers i t = (log, .ok out) → log = [] := by
  induction layers with
  | nil =>
    intro i t log out h
    simp only [bpConvLoopAux, Prod.mk.injEq] at h
    exact h.1.symm
  | cons L rest ih =>
    intro i t log out h
    simp only [bpConvLoopAux] at h
    cases hstep : L.convolve t true with
    | error e => rw [hstep] at h; simp at h
    | ok t2 => rw [hstep] at h; exact ih (i + 1) t2 log out h

theorem decoderLoopAux_snd (layers : List LayerableCNN) :
    ∀ (i : Nat) (t : Tensor4),
    (decoderLoopAux layers i t).2 = layers.foldlM (fun acc L => decoder_step L acc) t := by
  induction layers with
  | nil => intro i t; rfl
  | cons L rest ih =>
    intro i t
    rw [List.foldlM_cons]
    simp only [decoderLoopAux, decoder_step]
    cases hstep : L.graph.activation_function.backward t >>= L.deconvolve >>=
        L.graph.deactivation_function.activate with
    | error e => rfl
    | ok t2 => exact ih (i + 1) t2

theorem bpConvLoopAux_snd (layers : List LayerableCNN) :
    ∀ (i : Nat) (t : Tensor4),
    (bpConvLoopAux layers i t).2 = layers.foldlM (fun acc L => bp_conv_step L acc) t := by
  induction layers with
  | nil => intro i t; rfl
  | cons L rest ih =>
    intro i t
    rw [List.foldlM_cons]
    simp only [bpConvLoopAux, bp_conv_step]
    cases hstep : L.convolve t true with
    | error e => rfl
    | ok t2 => exact ih (i + 1) t2

theorem bpReverseLoopAux_snd (n : Nat) (layers : List LayerableCNN) :
    ∀ (i : Nat) (t : Tensor4),
    (bpReverseLoopAux n layers i t).2 =
      layers.foldlM (fun acc L => bp_rev_step L acc) t := by
  induction layers with
  | nil => intro i t; rfl
  | cons L rest ih =>
    intro i t
    rw [List.foldlM_cons]
    simp only [bpReverseLoopAux, bp_rev_step]
    cases hstep : L.back_propagate t >>= L.graph.deactivation_function.forward with
    | error e => rfl
    | ok t2 => exact ih (i + 1) t2

theorem except_error_bind {α β : Type} (e : Err) (k : α → Except Err β) :
    (Except.error e >>= k) = Except.error e := rfl

theorem except_ok_bind {α β : Type} (a : α) (k : α → Except Err β) :
    (Except.ok a >>= k) = k a := rfl

/-- Identity activation-function fixture: all three transforms return the
tensor unchanged. -/
def idActF : ActivatingFunction := ⟨fun t => .ok t, fun t => .ok t, fun t => .ok t⟩

/-- Activation-function fixture whose `backward` transform increments every
data element (so it is observably different from the identity). -/
def incBackActF : ActivatingFunction :=
  ⟨fun t => .ok t, fun t => .ok ⟨t.b, t.c, t.h, t.w, t.data.map (fun x => x + 1)⟩,
    fun t => .ok t⟩

/-- Layer fixture: identity `convolve`/`deconvolve`/`back_propagate`,
activation function `incBackActF`, deactivation function `idActF`. -/
def exLayerA : LayerableCNN :=
  ⟨fun t _ => .ok t, fun t => .ok t, fun t => .ok t, ⟨incBackActF, idActF⟩⟩

/-- Optimizer fixture with dropout rate `0`. -/
def exOpt0 : OptParams := ⟨0, fun t => .ok t, fun t => .ok t⟩

/-- One-layer auto-encoder fixture built by `init`. -/
def exState1 : ConvolutionalAutoEncoder := ConvolutionalAutoEncoder.init [exLayerA] exOpt0

/-- Concrete input tensor of shape `(1, 1, 1, 2)`. -/
def exInput : Tensor4 := ⟨1, 1, 1, 2, [0, 0]⟩

/-- C1 counterexample: on a one-layer stack whose encoder pass and dropout
step are the identity (rate `0`), the running tensor entering the decoder
step is `exInput`; the claim predicts the step result
`deactivation.activate (deconvolve (deactivation.backward exInput))`, which
is `.ok exInput` here, but `forward_propagation` produces the increment of
`exInput` because the source (line 150) applies the activation function's
`backward`, not the deactivation function's. -/
theorem claim_C1_counterexample :
    (exState1.forward_propagation exInput).2.2 = .ok ⟨1, 1, 1, 2, [1, 1]⟩ ∧
    (exLayerA.graph.deactivation_function.backward exInput >>= exLayerA.deconvolve >>=
      exLayerA.graph.deactivation_function.activate) = .ok exInput ∧
    (exState1.forward_propagation exInput).2.2 ≠ .ok exInput := by
  decide

/-- C1 (amended): in `forward_propagation`, the decoder phase transforms the
running tensor by, for each layer in reverse stack order, the layer's
*activation* function's `backward` transform, then the layer's `deconvolve`,
then the layer's deactivation function's `activate` transform
(`decoder_step`); equivalently, the result of `forward_propagation` is the
encoder phase, then the dropout step, then the fold of `decoder_step` over
the reversed layer list. -/
theorem claim_C1 (s : ConvolutionalAutoEncoder) (img_arr : Tensor4) :
    (s.forward_propagation img_arr).2.2 =
      (encoderLoopAux s.layerable_cnn_list 0 img_arr).2 >>= fun enc =>
      dropoutPhase s.opt_params enc >>= fun d =>
      s.layerable_cnn_list.reverse.foldlM (fun acc L => decoder_step L acc) d := by
  cases henc : encoderLoopAux s.layerable_cnn_list 0 img_arr with
  | mk log res =>
    cases res with
    | error e =>
      simp only [ConvolutionalAutoEncoder.forward_propagation, henc, except_error_bind]
    | ok enc =>
      cases hdrop : dropoutPhase s.opt_params enc with
      | error e =>
        simp only [ConvolutionalAutoEncoder.forward_propagation, henc, hdrop,
          except_ok_bind, except_error_bind]
      | ok d =>
        cases hdec : decoderLoopAux s.layerable_cnn_list.reverse 0 d with
        | mk log2 res2 =>
          have hfold := (decoderLoopAux_snd s.layerable_cnn_list.reverse 0 d).symm
          rw [hdec] at hfold
          cases res2 <;>
            simp only [ConvolutionalAutoEncoder.forward_propagation, henc, hdrop, hdec,
              except_ok_bind, ← hfold]

/-- C7: `extract_feature_points_arr` on a freshly constructed instance (no
forward pass yet) returns `none` (Python `None`) rather than raising. -/
theorem claim_C7 (layers : List LayerableCNN) (opt_params : OptParams) :
    (ConvolutionalAutoEncoder.init layers opt_params).extract_feature_points_arr = none :=
  rfl

/-- C9: `back_propagation` neither reads nor writes the feature-points
cache: on every path (success, error in any of its three phases) the state
it returns has the same `extract_feature_points_arr` value as the input
state. -/
theorem claim_C9 (s : ConvolutionalAutoEncoder) (delta_arr : Tensor4) :
    ((s.back_propagation delta_arr).2.1).extract_feature_points_arr =
      s.extract_feature_points_arr := by
  cases hconv : bpConvLoopAux s.layerable_cnn_list 0 delta_arr with
  | mk log res =>
    cases res with
    | error e =>
      simp [ConvolutionalAutoEncoder.back_propagation, hconv,
        ConvolutionalAutoEncoder.extract_feature_points_arr]
    | ok d1 =>
      cases hdrop : deDropoutPhase s.opt_params d1 with
      | error e =>
        simp [ConvolutionalAutoEncoder.back_propagation, hconv, hdrop,
          ConvolutionalAutoEncoder.extract_feature_points_arr]
      | ok d2 =>
        cases hrev : bpReverseLoopAux s.layerable_cnn_list.reverse.length
            s.layerable_cnn_list.reverse 0 d2 with
        | mk log2 res2 =>
          cases res2 <;>
            simp only [ConvolutionalAutoEncoder.back_propagation, hconv, hdrop, hrev,
              ConvolutionalAutoEncoder.extract_feature_points_arr]

/-- Specification-side definition for C4 (spec section 8, "Given dropout
rate = 0, forward is ... equal to running the pure encode-then-decode
transform with no stochastic step"): the encoder loop followed immediately
by the decoder loop over the reversed stack, with no dropout, flatten or
reshape step in between. -/
def encodeThenDecodeSpec (s : ConvolutionalAutoEncoder) (img_arr : Tensor4) :
    Except Err Tensor4 :=
  (encoderLoopAux s.layerable_cnn_list 0 img_arr).2 >>= fun enc =>
    (decoderLoopAux s.layerable_cnn_list.reverse 0 enc).2

/-- C4: when the dropout rate is `0`, `forward_propagation` skips the
dropout/flatten/reshape block entirely and its result is the pure
encode-then-decode composition `encodeThenDecodeSpec`.  (Determinism is
definitional in this embedding: the method is a pure function of the state
and input, and with rate `0` the one stochastic collaborator, `dropout`, is
never invoked.) -/
theorem claim_C4 (s : ConvolutionalAutoEncoder) (img_arr : Tensor4)
    (hrate : s.opt_params.dropout_rate = 0) :
    (s.forward_propagation img_arr).2.2 = encodeThenDecodeSpec s img_arr := by
  have hdrop : ∀ t : Tensor4, dropoutPhase s.opt_params t = .ok t := by
    intro t
    unfold dropoutPhase
    rw [hrate]
    simp
  cases henc : encoderLoopAux s.layerable_cnn_list 0 img_arr with
  | mk log res =>
    cases res with
    | error e =>
      simp only [ConvolutionalAutoEncoder.forward_propagation, encodeThenDecodeSpec,
        henc, except_error_bind]
    | ok enc =>
      cases hdec : decoderLoopAux s.layerable_cnn_list.reverse 0 enc with
      | mk log2 res2 =>
        cases res2 <;>
          simp only [ConvolutionalAutoEncoder.forward_propagation, encodeThenDecodeSpec,
            henc, hdrop, hdec, except_ok_bind]

/-- C4 witness: the one-layer rate-`0` fixture satisfies the hypothesis and
the conclusion of `claim_C4`. -/
theorem claim_C4_witness :
    exState1.opt_params.dropout_rate = 0 ∧
    (exState1.forward_propagation exInput).2.2 = encodeThenDecodeSpec exState1 exInput :=
  ⟨rfl, claim_C4 exState1 exInput rfl⟩

/-- C6: `back_propagation` is the sequential composition of (1) the fold of
`bp_conv_step` (the layer's `convolve` with `no_bias_flag=True`) over the
layers in forward stack order, (2) the de-dropout step, and (3) the
reverse-order loop; in particular the encoder-order convolve loop completes
before any dropout-inverse or reverse-order step runs, and each of its
per-layer transformations is `convolve` with the bias contribution
disabled. -/
theorem claim_C6 (s : ConvolutionalAutoEncoder) (delta_arr : Tensor4) :
    (s.back_propagation delta_arr).2.2 =
      s.layerable_cnn_list.foldlM (fun acc L => bp_conv_step L acc) delta_arr >>= fun d1 =>
      deDropoutPhase s.opt_params d1 >>= fun d2 =>
      (bpReverseLoopAux s.layerable_cnn_list.reverse.length
        s.layerable_cnn_list.reverse 0 d2).2 := by
  have hfold := (bpConvLoopAux_snd s.layerable_cnn_list 0 delta_arr).symm
  cases hconv : bpConvLoopAux s.layerable_cnn_list 0 delta_arr with
  | mk log res =>
    rw [hconv] at hfold
    cases res with
    | error e =>
      simp only [ConvolutionalAutoEncoder.back_propagation, hconv, hfold,
        except_error_bind]
    | ok d1 =>
      cases hdrop : deDropoutPhase s.opt_params d1 with
      | error e =>
        simp only [ConvolutionalAutoEncoder.back_propagation, hconv, hdrop, hfold,
          except_ok_bind, except_error_bind]
      | ok d2 =>
        cases hrev : bpReverseLoopAux s.layerable_cnn_list.reverse.length
            s.layerable_cnn_list.reverse 0 d2 with
        | mk log2 res2 =>
          cases res2 <;>
            simp only [ConvolutionalAutoEncoder.back_propagation, hconv, hdrop, hrev,
              hfold, except_ok_bind]

/-- Identity layer fixture: every operation succeeds and returns its input. -/
def exLayerId : LayerableCNN :=
  ⟨fun t _ => .ok t, fun t => .ok t, fun t => .ok t, ⟨idActF, idActF⟩⟩

/-- Layer fixture whose `deconvolve` raises `"boom"`; every other operation
is the identity. -/
def exLayerDecErr : LayerableCNN :=
  ⟨fun t _ => .ok t, fun _ => .error "boom", fun t => .ok t, ⟨idActF, idActF⟩⟩

/-- Two-layer fixture: stack layer 2 (1-based, original encoder order) has
the failing `deconvolve`. -/
def exState2 : ConvolutionalAutoEncoder :=
  ConvolutionalAutoEncoder.init [exLayerId, exLayerDecErr] exOpt0

/-- C2 counterexample: on a 2-layer stack where layer 2's `deconvolve`
raises, `forward_propagation` does re-raise the same error, but the debug
message it logs is `Error raised in Deconvolution layer 1` — the 1-based
position of that layer in the *reversed* decoder traversal — so no logged
message references layer 2 (no logged message even contains the character
`2`). -/
theorem claim_C2_counterexample :
    (exState2.forward_propagation exInput).2.2 = .error "boom" ∧
    (exState2.forward_propagation exInput).1 = ["Error raised in Deconvolution layer 1"] ∧
    (∀ m ∈ (exState2.forward_propagation exInput).1,
      (m.data.all fun c => c ≠ '2') = true) := by
  decide

/-- C2 (amended): for a 2-layer stack, if stack layer 2's `deconvolve`
raises during the decoder phase (the earlier phases succeeding), then
`forward_propagation` re-raises the same error, and the debug log consists
of the message `Error raised in Deconvolution layer 1` — referencing index 1,
the layer's 1-based position in the reversed decoder traversal, not its
original stack index 2. -/
theorem claim_C2 (s : ConvolutionalAutoEncoder) (L1 L2 : LayerableCNN)
    (img_arr enc d t1 : Tensor4) (e : Err)
    (hlist : s.layerable_cnn_list = [L1, L2])
    (henc : (encoderLoopAux s.layerable_cnn_list 0 img_arr).2 = .ok enc)
    (hdrop : dropoutPhase s.opt_params enc = .ok d)
    (hbw : L2.graph.activation_function.backward d = .ok t1)
    (hdec : L2.deconvolve t1 = .error e) :
    (s.forward_propagation img_arr).2.2 = .error e ∧
    (s.forward_propagation img_arr).1 = ["Error raised in Deconvolution layer 1"] := by
  have hrev : s.layerable_cnn_list.reverse = [L2, L1] := by rw [hlist]; rfl
  cases hE : encoderLoopAux s.layerable_cnn_list 0 img_arr with
  | mk log res =>
    rw [hE] at henc
    cases res with
    | error e2 => simp at henc
    | ok enc2 =>
      have h2 : enc2 = enc := by simpa using henc
      subst h2
      have hlog : log = [] := encoderLoopAux_ok_log _ 0 img_arr log enc2 hE
      have hdecloop : decoderLoopAux s.layerable_cnn_list.reverse 0 d =
          (["Error raised in Deconvolution layer " ++ toString (0 + 1)], .error e) := by
        rw [hrev]
        simp only [decoderLoopAux, hbw, except_ok_bind, hdec, except_error_bind]
      have hstr : ("Error raised in Deconvolution layer " ++ toString (0 + 1) : String) =
          "Error raised in Deconvolution layer 1" := by decide
      constructor <;>
        simp only [ConvolutionalAutoEncoder.forward_propagation, hE, hdrop, hdecloop,
          hlog, hstr, List.nil_append]

/-- C2 witness: the concrete 2-layer fixture discharges every hypothesis of
`claim_C2`. -/
theorem claim_C2_witness :
    (exState2.forward_propagation exInput).2.2 = .error "boom" ∧
    (exState2.forward_propagation exInput).1 = ["Error raised in Deconvolution layer 1"] :=
  claim_C2 exState2 exLayerId exLayerDecErr exInput exInput exInput exInput "boom"
    rfl (by decide) (by decide) (by decide) (by decide)

/-- C10: `forward_propagation` is not atomic with respect to the feature
cache.  If the encoder loop fails, the returned state's cache is the
pre-call cache; if the encoder loop succeeds with `enc`, the returned
state's cache is `some enc` — regardless of whether the dropout step or the
decoder loop subsequently raises. -/
theorem claim_C10 (s : ConvolutionalAutoEncoder) (img_arr : Tensor4) :
    (∀ e : Err, (encoderLoopAux s.layerable_cnn_list 0 img_arr).2 = .error e →
      (s.forward_propagation img_arr).2.1.extract_feature_points_arr =
        s.extract_feature_points_arr) ∧
    (∀ enc : Tensor4, (encoderLoopAux s.layerable_cnn_list 0 img_arr).2 = .ok enc →
      (s.forward_propagation img_arr).2.1.extract_feature_points_arr = some enc) := by
  cases hE : encoderLoopAux s.layerable_cnn_list 0 img_arr with
  | mk log res =>
    constructor
    · intro e he
      cases res with
      | error e2 =>
        simp only [ConvolutionalAutoEncoder.forward_propagation, hE,
          ConvolutionalAutoEncoder.extract_feature_points_arr]
      | ok enc2 => simp at he
    · intro enc henc
      cases res with
      | error e2 => simp at henc
      | ok enc2 =>
        have h2 : enc2 = enc := by simpa using henc
        subst h2
        cases hdrop : dropoutPhase s.opt_params enc2 with
        | error e =>
          simp only [ConvolutionalAutoEncoder.forward_propagation, hE, hdrop,
            ConvolutionalAutoEncoder.extract_feature_points_arr]
        | ok d =>
          cases hdec : decoderLoopAux s.layerable_cnn_list.reverse 0 d with
          | mk log2 res2 =>
            cases res2 <;>
              simp only [ConvolutionalAutoEncoder.forward_propagation, hE, hdrop, hdec,
                ConvolutionalAutoEncoder.extract_feature_points_arr]

/-- Layer fixture whose `convolve` raises (used for an encoder-phase
failure). -/
def exLayerConvErr : LayerableCNN :=
  ⟨fun _ _ => .error "conv boom", fun t => .ok t, fun t => .ok t, ⟨idActF, idActF⟩⟩

/-- One-layer fixture whose encoder phase fails, with a pre-existing cached
feature tensor. -/
def exStateConvErr : ConvolutionalAutoEncoder :=
  ⟨[exLayerConvErr], exOpt0, some exInput⟩

/-- C10 witness: an encoder-phase failure leaves the pre-call cache, and a
decoder-phase failure (the `exState2` fixture, whose layer 2 `deconvolve`
raises) leaves the cache overwritten with the current call's encoder
output. -/
theorem claim_C10_witness :
    (exStateConvErr.forward_propagation exInput).2.1.extract_feature_points_arr =
      exStateConvErr.extract_feature_points_arr ∧
    (exState2.forward_propagation exInput).2.1.extract_feature_points_arr = some exInput :=
  ⟨(claim_C10 exStateConvErr exInput).1 "conv boom" (by decide),
   (claim_C10 exState2 exInput).2 exInput (by decide)⟩

theorem bpReverseLoopAux_append (n : Nat) (pre : List LayerableCNN) :
    ∀ (post : List LayerableCNN) (i : Nat) (t u : Tensor4),
    bpReverseLoopAux n pre i t = ([], .ok u) →
    bpReverseLoopAux n (pre ++ post) i t = bpReverseLoopAux n post (i + pre.length) u := by
  induction pre with
  | nil =>
    intro post i t u h
    simp only [bpReverseLoopAux, Prod.mk.injEq, Except.ok.injEq] at h
    obtain ⟨-, h2⟩ := h
    subst h2
    simp
  | cons L rest ih =>
    intro post i t u h
    simp only [bpReverseLoopAux] at h
    rw [List.cons_append]
    simp only [bpReverseLoopAux]
    cases hstep : L.back_propagate t >>= L.graph.deactivation_function.forward with
    | error e => rw [hstep] at h; simp at h
    | ok t2 =>
      rw [hstep] at h
      have h2 : bpReverseLoopAux n rest (i + 1) t2 = ([], Except.ok u) := h
      have hgoal := ih post (i + 1) t2 u h2
      have harith : i + 1 + rest.length = i + (L :: rest).length := by
        simp only [List.length_cons]
        omega
      rw [← harith]
      exact hgoal

/-- C8: when the reverse-order loop of `back_propagation` fails at 0-based
position `pre.length` of the reversed traversal (the positions in `pre`
having succeeded silently), the logged message reports index
`len(reversed list) - pre.length`, which equals the failing layer's 1-based
position in original stack order (`post.length + 1`), and the error is
re-raised unchanged. -/
theorem claim_C8 (s : ConvolutionalAutoEncoder) (delta_arr d1 d2 t : Tensor4)
    (pre post : List LayerableCNN) (L : LayerableCNN) (e : Err)
    (hconv : bpConvLoopAux s.layerable_cnn_list 0 delta_arr = ([], .ok d1))
    (hdrop : deDropoutPhase s.opt_params d1 = .ok d2)
    (hsplit : s.layerable_cnn_list.reverse = pre ++ L :: post)
    (hpre : bpReverseLoopAux s.layerable_cnn_list.reverse.length pre 0 d2 = ([], .ok t))
    (hstep : L.back_propagate t >>= L.graph.deactivation_function.forward = .error e) :
    (s.back_propagation delta_arr).2.2 = .error e ∧
    (s.back_propagation delta_arr).1 =
      ["Delta computation raised an error in CNN layer " ++
        toString (s.layerable_cnn_list.reverse.length - pre.length)] ∧
    s.layerable_cnn_list.reverse.length - pre.length = post.length + 1 := by
  have hn : s.layerable_cnn_list.reverse.length = pre.length + (post.length + 1) := by
    rw [hsplit]
    simp [List.length_append]
  have hloop : bpReverseLoopAux s.layerable_cnn_list.reverse.length
      s.layerable_cnn_list.reverse 0 d2 =
      (["Delta computation raised an error in CNN layer " ++
        toString (s.layerable_cnn_list.reverse.length - pre.length)], .error e) := by
    have happ := bpReverseLoopAux_append s.layerable_cnn_list.reverse.length
      pre (L :: post) 0 d2 t hpre
    rw [← hsplit] at happ
    rw [happ]
    simp only [bpReverseLoopAux, hstep, Nat.zero_add]
  refine ⟨?_, ?_, by omega⟩
  · simp only [ConvolutionalAutoEncoder.back_propagation, hconv, hdrop, hloop]
  · simp only [ConvolutionalAutoEncoder.back_propagation, hconv, hdrop, hloop,
      List.nil_append]

/-- Layer fixture whose `back_propagate` raises. -/
def exLayerBpErr : LayerableCNN :=
  ⟨fun t _ => .ok t, fun t => .ok t, fun _ => .error "bp boom", ⟨idActF, idActF⟩⟩

/-- Two-layer fixture in which stack layer 1 (original order) fails in
`back_propagate`: in the reversed traversal it sits at 0-based position 1. -/
def exStateBp : ConvolutionalAutoEncoder :=
  ConvolutionalAutoEncoder.init [exLayerBpErr, exLayerId] exOpt0

/-- C8 witness: the concrete fixture discharges every hypothesis of
`claim_C8` with `pre = [exLayerId]` and `post = []`. -/
theorem claim_C8_witness :
    (exStateBp.back_propagation exInput).2.2 = .error "bp boom" ∧
    (exStateBp.back_propagation exInput).1 =
      ["Delta computation raised an error in CNN layer " ++
        toString (exStateBp.layerable_cnn_list.reverse.length - [exLayerId].length)] ∧
    exStateBp.layerable_cnn_list.reverse.length - [exLayerId].length =
      ([] : List LayerableCNN).length + 1 :=
  claim_C8 exStateBp exInput exInput exInput exInput [exLayerId] [] exLayerBpErr "bp boom"
    (by decide) (by decide) rfl (by decide) (by decide)

/-- Shape contract of one layer, formalizing the documented contract (spec
section 3): the layer has fixed input/output shapes with the batch dimension
preserved; `convolve` maps the input shape to the output shape, `deconvolve`
maps the output shape back to the input shape, and the activation /
deactivation transforms used by `forward_propagation` preserve shape. -/
structure LayerShapeContract (L : LayerableCNN) (sIn sOut : Nat × Nat × Nat × Nat) : Prop where
  batch_eq : sIn.1 = sOut.1
  conv : ∀ t u, t.shape = sIn → L.convolve t false = .ok u → u.shape = sOut
  deconv : ∀ t u, t.shape = sOut → L.deconvolve t = .ok u → u.shape = sIn
  act : ∀ t u, L.graph.activation_function.activate t = .ok u → u.shape = t.shape
  act_backward : ∀ t u, L.graph.activation_function.backward t = .ok u → u.shape = t.shape
  deact : ∀ t u, L.graph.deactivation_function.activate t = .ok u → u.shape = t.shape

/-- Shape contract chained along the stack in encoder order. -/
def chainContract : List LayerableCNN → (Nat × Nat × Nat × Nat) → (Nat × Nat × Nat × Nat) → Prop
  | [], sIn, sOut => sIn = sOut
  | L :: rest, sIn, sOut => ∃ sMid, LayerShapeContract L sIn sMid ∧ chainContract rest sMid sOut

/-- Shape contract chained along a list traversed in decoder order: each
element maps the current shape back through its own contract. -/
def revChainContract :
    List LayerableCNN → (Nat × Nat × Nat × Nat) → (Nat × Nat × Nat × Nat) → Prop
  | [], s1, s2 => s1 = s2
  | L :: rest, s1, s2 => ∃ sMid, LayerShapeContract L sMid s1 ∧ revChainContract rest sMid s2

theorem chainContract_batch (layers : List LayerableCNN) :
    ∀ sIn sOut, chainContract layers sIn sOut → sIn.1 = sOut.1 := by
  induction layers with
  | nil => intro sIn sOut h; rw [h]
  | cons L rest ih =>
    intro sIn sOut h
    obtain ⟨sMid, hL, hrest⟩ := h
    exact hL.batch_eq.trans (ih sMid sOut hrest)

theorem revChainContract_append (xs : List LayerableCNN) :
    ∀ (ys : List LayerableCNN) (s1 s3 : Nat × Nat × Nat × Nat),
    revChainContract (xs ++ ys) s1 s3 ↔
      ∃ s2, revChainContract xs s1 s2 ∧ revChainContract ys s2 s3 := by
  induction xs with
  | nil => intro ys s1 s3; simp [revChainContract]
  | cons L rest ih =>
    intro ys s1 s3
    rw [List.cons_append]
    simp only [revChainContract]
    constructor
    · rintro ⟨sMid, hL, hrec⟩
      obtain ⟨s2, h1, h2⟩ := (ih ys sMid s3).mp hrec
      exact ⟨s2, ⟨sMid, hL, h1⟩, h2⟩
    · rintro ⟨s2, ⟨sMid, hL, h1⟩, h2⟩
      exact ⟨sMid, hL, (ih ys sMid s3).mpr ⟨s2, h1, h2⟩⟩

theorem chainContract_reverse (layers : List LayerableCNN) :
    ∀ sIn sOut, chainContract layers sIn sOut →
    revChainContract layers.reverse sOut sIn := by
  induction layers with
  | nil =>
    intro sIn sOut h
    simpa [revChainContract] using h.symm
  | cons L rest ih =>
    intro sIn sOut h
    obtain ⟨sMid, hL, hrest⟩ := h
    rw [List.reverse_cons, revChainContract_append]
    exact ⟨sMid, ih sMid sOut hrest, ⟨sIn, hL, rfl⟩⟩

theorem encoderLoopAux_shape (layers : List LayerableCNN) :
    ∀ (sIn sOut : Nat × Nat × Nat × Nat) (i : Nat) (t : Tensor4) (log : List String)
      (enc : Tensor4),
    chainContract layers sIn sOut → t.shape = sIn →
    encoderLoopAux layers i t = (log, .ok enc) → enc.shape = sOut := by
  induction layers with
  | nil =>
    intro sIn sOut i t log enc hc ht h
    simp only [chainContract] at hc
    simp only [encoderLoopAux, Prod.mk.injEq, Except.ok.injEq] at h
    obtain ⟨-, h2⟩ := h
    subst h2
    exact ht.trans hc
  | cons L rest ih =>
    intro sIn sOut i t log enc hc ht h
    obtain ⟨sMid, hL, hrest⟩ := hc
    simp only [encoderLoopAux] at h
    cases hconv : L.convolve t false with
    | error e => rw [hconv, except_error_bind] at h; simp at h
    | ok t1 =>
      rw [hconv, except_ok_bind] at h
      cases hact : L.graph.activation_function.activate t1 with
      | error e => rw [hact] at h; simp at h
      | ok t2 =>
        rw [hact] at h
        have h2 : encoderLoopAux rest (i + 1) t2 = (log, .ok enc) := h
        have ht1 : t1.shape = sMid := hL.conv t t1 ht hconv
        have ht2 : t2.shape = sMid := (hL.act t1 t2 hact).trans ht1
        exact ih sMid sOut (i + 1) t2 log enc hrest ht2 h2

theorem decoderLoopAux_shape (layers : List LayerableCNN) :
    ∀ (s1 s2 : Nat × Nat × Nat × Nat) (i : Nat) (t : Tensor4) (log : List String)
      (out : Tensor4),
    revChainContract layers s1 s2 → t.shape = s1 →
    decoderLoopAux layers i t = (log, .ok out) → out.shape = s2 := by
  induction layers with
  | nil =>
    intro s1 s2 i t log out hc ht h
    simp only [revChainContract] at hc
    simp only [decoderLoopAux, Prod.mk.injEq, Except.ok.injEq] at h
    obtain ⟨-, h2⟩ := h
    subst h2
    exact ht.trans hc
  | cons L rest ih =>
    intro s1 s2 i t log out hc ht h
    obtain ⟨sMid, hL, hrest⟩ := hc
    simp only [decoderLoopAux] at h
    cases hbw : L.graph.activation_function.backward t with
    | error e => rw [hbw, except_error_bind, except_error_bind] at h; simp at h
    | ok t1 =>
      rw [hbw, except_ok_bind] at h
      cases hdc : L.deconvolve t1 with
      | error e => rw [hdc, except_error_bind] at h; simp at h
      | ok t2 =>
        rw [hdc, except_ok_bind] at h
        cases hac : L.graph.deactivation_function.activate t2 with
        | error e => rw [hac] at h; simp at h
        | ok t3 =>
          rw [hac] at h
          have h2 : decoderLoopAux rest (i + 1) t3 = (log, .ok out) := h
          have ht1 : t1.shape = s1 := (hL.act_backward t t1 hbw).trans ht
          have ht2 : t2.shape = sMid := hL.deconv t1 t2 ht1 hdc
          have ht3 : t3.shape = sMid := (hL.deact t2 t3 hac).trans ht2
          exact ih sMid s2 (i + 1) t3 log out hrest ht3 h2

theorem dropoutPhase_shape (opt_params : OptParams) (t u : Tensor4)
    (h : dropoutPhase opt_params t = .ok u) : u.shape = t.shape := by
  unfold dropoutPhase at h
  by_cases hrate : opt_params.dropout_rate > 0
  · rw [if_pos hrate] at h
    cases hr : t.reshape2 with
    | error e => simp only [hr, except_error_bind] at h; simp at h
    | ok h2d =>
      simp only [hr, except_ok_bind] at h
      cases hdp : opt_params.dropout h2d with
      | error e => simp only [hdp, except_error_bind] at h; simp at h
      | ok hd2 =>
        simp only [hdp, except_ok_bind] at h
        unfold Tensor2.reshape4 at h
        split at h
        · cases h
          rfl
        · simp at h
  · rw [if_neg hrate] at h
    cases h
    rfl

/-- C5: under the documented shape contract chained along the stack (from
the input tensor's shape to some encoder-output shape `sOut`), a successful
`forward_propagation` returns a tensor of exactly the input's 4-D shape,
and the batch dimension is preserved at every phase boundary — in
particular the cached encoder output keeps the input's batch dimension (the
contract itself forces batch preservation across each per-layer
transformation). -/
theorem claim_C5 (s : ConvolutionalAutoEncoder) (img_arr out : Tensor4)
    (sOut : Nat × Nat × Nat × Nat)
    (hc : chainContract s.layerable_cnn_list img_arr.shape sOut)
    (hfwd : (s.forward_propagation img_arr).2.2 = .ok out) :
    out.shape = img_arr.shape ∧
    (∀ enc, (s.forward_propagation img_arr).2.1.feature_points_arr = some enc →
      enc.b = img_arr.b) := by
  cases hE : encoderLoopAux s.layerable_cnn_list 0 img_arr with
  | mk log res =>
    cases res with
    | error e =>
      simp only [ConvolutionalAutoEncoder.forward_propagation, hE] at hfwd
      exact absurd hfwd (by simp)
    | ok enc =>
      have hencsh : enc.shape = sOut :=
        encoderLoopAux_shape s.layerable_cnn_list img_arr.shape sOut 0 img_arr log enc
          hc rfl hE
      have hbatch : img_arr.shape.1 = sOut.1 :=
        chainContract_batch s.layerable_cnn_list img_arr.shape sOut hc
      have hencb : enc.b = img_arr.b := by
        have h1 := congrArg Prod.fst hencsh
        simp only [Tensor4.shape] at h1 hbatch
        omega
      cases hdrop : dropoutPhase s.opt_params enc with
      | error e =>
        simp only [ConvolutionalAutoEncoder.forward_propagation, hE, hdrop] at hfwd
        exact absurd hfwd (by simp)
      | ok d =>
        have hdsh : d.shape = sOut :=
          (dropoutPhase_shape s.opt_params enc d hdrop).trans hencsh
        cases hdec : decoderLoopAux s.layerable_cnn_list.reverse 0 d with
        | mk log2 res2 =>
          cases res2 with
          | error e =>
            simp only [ConvolutionalAutoEncoder.forward_propagation, hE, hdrop,
              hdec] at hfwd
            exact absurd hfwd (by simp)
          | ok out2 =>
            simp only [ConvolutionalAutoEncoder.forward_propagation, hE, hdrop, hdec,
              Except.ok.injEq] at hfwd
            constructor
            · rw [← hfwd]
              exact decoderLoopAux_shape s.layerable_cnn_list.reverse sOut
                img_arr.shape 0 d log2 out2
                (chainContract_reverse s.layerable_cnn_list img_arr.shape sOut hc)
                hdsh hdec
            · intro enc2 hfc
              simp only [ConvolutionalAutoEncoder.forward_propagation, hE, hdrop, hdec,
                Option.some.injEq] at hfc
              rw [← hfc]
              exact hencb

/-- Concrete shape contract for the identity-style fixture layer: every
operation preserves the shape. -/
theorem exLayerA_contract (σ : Nat × Nat × Nat × Nat) : LayerShapeContract exLayerA σ σ where
  batch_eq := rfl
  conv := fun t u ht h => by cases h; exact ht
  deconv := fun t u ht h => by cases h; exact ht
  act := fun t u h => by cases h; rfl
  act_backward := fun t u h => by cases h; rfl
  deact := fun t u h => by cases h; rfl

/-- C5 witness: the one-layer fixture satisfies the chained shape contract
at the input's shape, and the conclusion holds at the concrete output. -/
theorem claim_C5_witness :
    (⟨1, 1, 1, 2, [1, 1]⟩ : Tensor4).shape = exInput.shape ∧
    (∀ enc, (exState1.forward_propagation exInput).2.1.feature_points_arr = some enc →
      enc.b = exInput.b) :=
  claim_C5 exState1 exInput ⟨1, 1, 1, 2, [1, 1]⟩ exInput.shape
    ⟨exInput.shape, exLayerA_contract exInput.shape, rfl⟩ (by decide)

/-- Object heap, modelling numpy array object identity for claim C3: `next`
is the next fresh reference, `val` maps every reference to a tensor value.
The numpy operations used by `forward_propagation` return fresh arrays (and
`img_arr.copy()` explicitly allocates a fresh buffer), so each operation
result is modelled as a fresh allocation. -/
structure Heap where
  next : Nat
  val : Nat → Tensor4

/-- Allocate a fresh cell holding `t`; returns the new heap and the fresh
reference. -/
def Heap.alloc (h : Heap) (t : Tensor4) : Heap × Nat :=
  (⟨h.next + 1, fun x => if x = h.next then t else h.val x⟩, h.next)

/-- In-place mutation of the array object behind reference `r`. -/
def Heap.write (h : Heap) (r : Nat) (t : Tensor4) : Heap :=
  ⟨h.next, fun x => if x = r then t else h.val x⟩

theorem Heap.val_alloc_self (h : Heap) (t : Tensor4) :
    (h.alloc t).1.val (h.alloc t).2 = t := by
  simp [Heap.alloc]

theorem Heap.val_alloc_lt (h : Heap) (t : Tensor4) (x : Nat) (hx : x < h.next) :
    (h.alloc t).1.val x = h.val x := by
  simp only [Heap.alloc]
  rw [if_neg (by omega)]

theorem Heap.val_write_ne (h : Heap) (r : Nat) (t : Tensor4) (x : Nat) (hx : x ≠ r) :
    (h.write r t).val x = h.val x := by
  simp only [Heap.write]
  rw [if_neg hx]

/-- Heap-passing rendition of the encoder loop of `forward_propagation`
(source lines 127-133): each numpy operation result is a fresh array
object.  Logging is elided here (claim C3 concerns the successful path);
the pure `encoderLoopAux` remains the primary rendition, and
`encoderLoopHeap_val` relates the two. -/
def encoderLoopHeap (layers : List LayerableCNN) (h : Heap) (r : Nat) :
    Except Err (Heap × Nat) :=
  match layers with
  | [] => .ok (h, r)
  | L :: rest =>
    L.convolve (h.val r) false >>= fun v =>
      let hr1 := h.alloc v
      L.graph.activation_function.activate (hr1.1.val hr1.2) >>= fun v2 =>
        let hr2 := hr1.1.alloc v2
        encoderLoopHeap rest hr2.1 hr2.2

/-- Heap-passing rendition of the decoder loop (source lines 147-155). -/
def decoderLoopHeap (layers : List LayerableCNN) (h : Heap) (r : Nat) :
    Except Err (Heap × Nat) :=
  match layers with
  | [] => .ok (h, r)
  | L :: rest =>
    L.graph.activation_function.backward (h.val r) >>= fun v =>
      let hr1 := h.alloc v
      L.deconvolve (hr1.1.val hr1.2) >>= fun v2 =>
        let hr2 := hr1.1.alloc v2
        L.graph.deactivation_function.activate (hr2.1.val hr2.2) >>= fun v3 =>
          let hr3 := hr2.1.alloc v3
          decoderLoopHeap rest hr3.1 hr3.2

/-- Heap-passing rendition of the dropout step (source lines 137-145): the
flattened 2-D intermediates are not 4-D array objects in this model; the
reshaped 4-D result is a fresh array object. -/
def dropoutPhaseHeap (opt_params : OptParams) (h : Heap) (r : Nat) :
    Except Err (Heap × Nat) :=
  if opt_params.dropout_rate > 0 then
    (h.val r).reshape2 >>= fun hidden =>
      opt_params.dropout hidden >>= fun hidden2 =>
        hidden2.reshape4 (h.val r).b (h.val r).c (h.val r).h (h.val r).w >>= fun v =>
          let hr := h.alloc v
          .ok (hr.1, hr.2)
  else .ok (h, r)

/-- Heap-state variant of the auto-encoder instance: the cached attribute
`__feature_points_arr` holds a reference to an array object. -/
structure ConvolutionalAutoEncoderHeap where
  layerable_cnn_list : List LayerableCNN
  opt_params : OptParams
  feature_points_ref : Option Nat

/-- Heap-passing rendition of `forward_propagation` (source lines 112-157):
after a successful encoder pass, `img_arr.copy()` (line 135) allocates a
fresh cell whose reference is stored in the cache attribute, then the
dropout step and the decoder loop run. -/
def ConvolutionalAutoEncoderHeap.forward_propagation_heap
    (s : ConvolutionalAutoEncoderHeap) (h : Heap) (r : Nat) :
    Except Err (ConvolutionalAutoEncoderHeap × Heap × Nat) :=
  encoderLoopHeap s.layerable_cnn_list h r >>= fun hr1 =>
    let hc := hr1.1.alloc (hr1.1.val hr1.2)
    let s2 : ConvolutionalAutoEncoderHeap := { s with feature_points_ref := some hc.2 }
    dropoutPhaseHeap s2.opt_params hc.1 hr1.2 >>= fun hr3 =>
      decoderLoopHeap s2.layerable_cnn_list.reverse hr3.1 hr3.2 >>= fun hr4 =>
        .ok (s2, hr4.1, hr4.2)

/-- Heap-state rendition of `extract_feature_points_arr` (source lines
203-211): returns the cached reference. -/
def ConvolutionalAutoEncoderHeap.extract_feature_points_arr
    (s : ConvolutionalAutoEncoderHeap) : Option Nat :=
  s.feature_points_ref

/-- Bookkeeping facts one heap-passing phase guarantees: the fresh-reference
counter grows, the returned reference is live, the returned reference is
either the input reference or a fresh one, and all cells live before the
phase are untouched. -/
def HeapStep (h : Heap) (r : Nat) (h1 : Heap) (r1 : Nat) : Prop :=
  h.next ≤ h1.next ∧ r1 < h1.next ∧ (r1 = r ∨ h.next ≤ r1) ∧
    ∀ x, x < h.next → h1.val x = h.val x

theorem encoderLoopHeap_inv (layers : List LayerableCNN) :
    ∀ (h : Heap) (r : Nat) (h1 : Heap) (r1 : Nat),
    r < h.next → encoderLoopHeap layers h r = .ok (h1, r1) → HeapStep h r h1 r1 := by
  induction layers with
  | nil =>
    intro h r h1 r1 hr heq
    simp only [encoderLoopHeap, Except.ok.injEq, Prod.mk.injEq] at heq
    obtain ⟨hh, hrr⟩ := heq
    subst hh; subst hrr
    exact ⟨le_refl _, hr, Or.inl rfl, fun x _ => rfl⟩
  | cons L rest ih =>
    intro h r h1 r1 hr heq
    simp only [encoderLoopHeap] at heq
    cases hconv : L.convolve (h.val r) false with
    | error e => simp only [hconv, except_error_bind] at heq; simp at heq
    | ok v =>
      simp only [hconv, except_ok_bind, Heap.val_alloc_self] at heq
      cases hact : L.graph.activation_function.activate v with
      | error e => simp only [hact, except_error_bind] at heq; simp at heq
      | ok v2 =>
        simp only [hact, except_ok_bind] at heq
        obtain ⟨hnext, hlt, hor, hframe⟩ :=
          ih ((h.alloc v).1.alloc v2).1 ((h.alloc v).1.alloc v2).2 h1 r1
            (by simp only [Heap.alloc]; omega) heq
        refine ⟨?_, hlt, Or.inr ?_, ?_⟩
        · simp only [Heap.alloc] at hnext ⊢
          omega
        · rcases hor with hor | hor <;> simp only [Heap.alloc] at hor ⊢ <;> omega
        · intro x hx
          rw [hframe x (by simp only [Heap.alloc]; omega)]
          rw [Heap.val_alloc_lt (h.alloc v).1 v2 x (by simp only [Heap.alloc]; omega)]
          exact Heap.val_alloc_lt h v x hx

theorem decoderLoopHeap_inv (layers : List LayerableCNN) :
    ∀ (h : Heap) (r : Nat) (h1 : Heap) (r1 : Nat),
    r < h.next → decoderLoopHeap layers h r = .ok (h1, r1) → HeapStep h r h1 r1 := by
  induction layers with
  | nil =>
    intro h r h1 r1 hr heq
    simp only [decoderLoopHeap, Except.ok.injEq, Prod.mk.injEq] at heq
    obtain ⟨hh, hrr⟩ := heq
    subst hh; subst hrr
    exact ⟨le_refl _, hr, Or.inl rfl, fun x _ => rfl⟩
  | cons L rest ih =>
    intro h r h1 r1 hr heq
    simp only [decoderLoopHeap] at heq
    cases hbw : L.graph.activation_function.backward (h.val r) with
    | error e => simp only [hbw, except_error_bind] at heq; simp at heq
    | ok v =>
      simp only [hbw, except_ok_bind, Heap.val_alloc_self] at heq
      cases hdc : L.deconvolve v with
      | error e => simp only [hdc, except_error_bind] at heq; simp at heq
      | ok v2 =>
        simp only [hdc, except_ok_bind, Heap.val_alloc_self] at heq
        cases hac : L.graph.deactivation_function.activate v2 with
        | error e => simp only [hac, except_error_bind] at heq; simp at heq
        | ok v3 =>
          simp only [hac, except_ok_bind] at heq
          obtain ⟨hnext, hlt, hor, hframe⟩ :=
            ih (((h.alloc v).1.alloc v2).1.alloc v3).1
              (((h.alloc v).1.alloc v2).1.alloc v3).2 h1 r1
              (by simp only [Heap.alloc]; omega) heq
          refine ⟨?_, hlt, Or.inr ?_, ?_⟩
          · simp only [Heap.alloc] at hnext ⊢
            omega
          · rcases hor with hor | hor <;> simp only [Heap.alloc] at hor ⊢ <;> omega
          · intro x hx
            rw [hframe x (by simp only [Heap.alloc]; omega)]
            rw [Heap.val_alloc_lt ((h.alloc v).1.alloc v2).1 v3 x
              (by simp only [Heap.alloc]; omega)]
            rw [Heap.val_alloc_lt (h.alloc v).1 v2 x (by simp only [Heap.alloc]; omega)]
            exact Heap.val_alloc_lt h v x hx

theorem dropoutPhaseHeap_inv (opt_params : OptParams) (h : Heap) (r : Nat)
    (h1 : Heap) (r1 : Nat) (hr : r < h.next)
    (heq : dropoutPhaseHeap opt_params h r = .ok (h1, r1)) : HeapStep h r h1 r1 := by
  unfold dropoutPhaseHeap at heq
  by_cases hrate : opt_params.dropout_rate > 0
  · rw [if_pos hrate] at heq
    cases hr2 : (h.val r).reshape2 with
    | error e => simp only [hr2, except_error_bind] at heq; simp at heq
    | ok hidden =>
      simp only [hr2, except_ok_bind] at heq
      cases hdp : opt_params.dropout hidden with
      | error e => simp only [hdp, except_error_bind] at heq; simp at heq
      | ok hidden2 =>
        simp only [hdp, except_ok_bind] at heq
        cases hr4 : hidden2.reshape4 (h.val r).b (h.val r).c (h.val r).h (h.val r).w with
        | error e => simp only [hr4, except_error_bind] at heq; simp at heq
        | ok v =>
          simp only [hr4, except_ok_bind, Except.ok.injEq, Prod.mk.injEq] at heq
          obtain ⟨hh, hrr⟩ := heq
          subst hh; subst hrr
          refine ⟨by simp only [Heap.alloc]; omega, by simp only [Heap.alloc]; omega,
            Or.inr (by simp only [Heap.alloc]; omega), ?_⟩
          intro x hx
          exact Heap.val_alloc_lt h v x hx
  · rw [if_neg hrate] at heq
    simp only [Except.ok.injEq, Prod.mk.injEq] at heq
    obtain ⟨hh, hrr⟩ := heq
    subst hh; subst hrr
    exact ⟨le_refl _, hr, Or.inl rfl, fun x _ => rfl⟩

theorem encoderLoopHeap_val (layers : List LayerableCNN) :
    ∀ (h : Heap) (r : Nat) (h1 : Heap) (r1 : Nat) (i : Nat),
    encoderLoopHeap layers h r = .ok (h1, r1) →
    (encoderLoopAux layers i (h.val r)).2 = .ok (h1.val r1) := by
  induction layers with
  | nil =>
    intro h r h1 r1 i heq
    simp only [encoderLoopHeap, Except.ok.injEq, Prod.mk.injEq] at heq
    obtain ⟨hh, hrr⟩ := heq
    subst hh; subst hrr
    rfl
  | cons L rest ih =>
    intro h r h1 r1 i heq
    simp only [encoderLoopHeap] at heq
    simp only [encoderLoopAux]
    cases hconv : L.convolve (h.val r) false with
    | error e => simp only [hconv, except_error_bind] at heq; simp at heq
    | ok v =>
      simp only [hconv, except_ok_bind, Heap.val_alloc_self] at heq
      simp only [hconv, except_ok_bind]
      cases hact : L.graph.activation_function.activate v with
      | error e => simp only [hact, except_error_bind] at heq; simp at heq
      | ok v2 =>
        simp only [hact, except_ok_bind] at heq
        simp only [hact]
        have := ih ((h.alloc v).1.alloc v2).1 ((h.alloc v).1.alloc v2).2 h1 r1 (i + 1) heq
        rw [Heap.val_alloc_self] at this
        exact this

/-- C3: after any successful `forward_propagation` (heap rendition, which
makes numpy object identity explicit), the cache holds a reference `rc`
whose value is exactly the pure encoder output `enc` (the last
encoder-stack layer's convolution-plus-activation result, before any
dropout or decoding, per `encoderLoopAux`), its shape is the encoder-output
shape, the cached cell is distinct from the returned array object
(`img_arr.copy()` at source line 135), and mutating the returned object in
place leaves the cached value unchanged. -/
theorem claim_C3 (s : ConvolutionalAutoEncoderHeap) (h : Heap) (r : Nat)
    (s2 : ConvolutionalAutoEncoderHeap) (h4 : Heap) (r4 : Nat)
    (hr : r < h.next)
    (hfwd : s.forward_propagation_heap h r = .ok (s2, h4, r4)) :
    ∃ rc enc, s2.extract_feature_points_arr = some rc ∧
      (encoderLoopAux s.layerable_cnn_list 0 (h.val r)).2 = .ok enc ∧
      h4.val rc = enc ∧ (h4.val rc).shape = enc.shape ∧ rc ≠ r4 ∧
      ∀ t : Tensor4, (h4.write r4 t).val rc = enc := by
  unfold ConvolutionalAutoEncoderHeap.forward_propagation_heap at hfwd
  cases hE : encoderLoopHeap s.layerable_cnn_list h r with
  | error e => simp only [hE, except_error_bind] at hfwd; simp at hfwd
  | ok hp1 =>
    obtain ⟨h1, r1⟩ := hp1
    simp only [hE, except_ok_bind] at hfwd
    cases hD : dropoutPhaseHeap s.opt_params (h1.alloc (h1.val r1)).1 r1 with
    | error e => simp only [hD, except_error_bind] at hfwd; simp at hfwd
    | ok hp3 =>
      obtain ⟨h3, r3⟩ := hp3
      simp only [hD, except_ok_bind] at hfwd
      cases hDec : decoderLoopHeap s.layerable_cnn_list.reverse h3 r3 with
      | error e => simp only [hDec, except_error_bind] at hfwd; simp at hfwd
      | ok hp4 =>
        obtain ⟨h4x, r4x⟩ := hp4
        simp only [hDec, except_ok_bind, Except.ok.injEq, Prod.mk.injEq] at hfwd
        obtain ⟨hs2, hh4, hr4eq⟩ := hfwd
        subst hs2; subst hh4; subst hr4eq
        obtain ⟨hEn, hEr, hEor, hEframe⟩ :=
          encoderLoopHeap_inv s.layerable_cnn_list h r h1 r1 hr hE
        have hallocnext : (h1.alloc (h1.val r1)).1.next = h1.next + 1 := rfl
        have hallocref : (h1.alloc (h1.val r1)).2 = h1.next := rfl
        obtain ⟨hDn, hDr, hDor, hDframe⟩ :=
          dropoutPhaseHeap_inv s.opt_params (h1.alloc (h1.val r1)).1 r1 h3 r3
            (by omega) hD
        obtain ⟨hXn, hXr, hXor, hXframe⟩ :=
          decoderLoopHeap_inv s.layerable_cnn_list.reverse h3 r3 h4x r4x hDr hDec
        have hne : (h1.alloc (h1.val r1)).2 ≠ r4x := by
          rcases hXor with h4eq | h4ge
          · rcases hDor with h3eq | h3ge <;> omega
          · omega
        have hval4 : h4x.val (h1.alloc (h1.val r1)).2 = h1.val r1 := by
          rw [hXframe _ (by omega)]
          rw [hDframe _ (by omega)]
          exact Heap.val_alloc_self h1 (h1.val r1)
        refine ⟨(h1.alloc (h1.val r1)).2, h1.val r1, rfl,
          encoderLoopHeap_val s.layerable_cnn_list h r h1 r1 0 hE, hval4,
          by rw [hval4], hne, ?_⟩
        intro t
        rw [Heap.val_write_ne h4x r4x t _ hne]
        exact hval4

/-- Concrete heap fixture: one live cell (reference 0) holding `exInput`. -/
def exHeap : Heap := ⟨1, fun _ => exInput⟩

/-- Concrete heap-state fixture with the one-layer stack and rate-0
optimizer. -/
def exHeapState : ConvolutionalAutoEncoderHeap := ⟨[exLayerA], exOpt0, none⟩

/-- C3 witness: running the heap rendition on the concrete fixture
discharges both hypotheses of `claim_C3` and yields its conclusion. -/
theorem claim_C3_witness :
    ∃ s2 h4 r4, exHeapState.forward_propagation_heap exHeap 0 = .ok (s2, h4, r4) ∧
      ∃ rc enc, s2.extract_feature_points_arr = some rc ∧
        (encoderLoopAux exHeapState.layerable_cnn_list 0 (exHeap.val 0)).2 = .ok enc ∧
        h4.val rc = enc ∧ (h4.val rc).shape = enc.shape ∧ rc ≠ r4 ∧
        ∀ t : Tensor4, (h4.write r4 t).val rc = enc := by
  refine ⟨_, _, _, rfl, ?_⟩
  exact claim_C3 exHeapState exHeap 0 _ _ _ (by decide) rfl
